import Mathlib

/-!
Verification development for the system-tray / notification / CLI fragment
of a desktop application shell (tauri `src/app/tray.rs`,
`src/api/notification.rs`, `src/endpoints/cli.rs`).

The Rust code is shallowly embedded: pure functions become Lean functions,
the shared registry becomes explicit state passing, fallible native calls
become oracle functions returning `Except`, and the `panic!` in `get_item`
becomes an explicit `panic` constructor of the result type.
-/

namespace Tray

/-- Numeric menu-item handle, `MenuHash` in the source (a machine integer
assigned when the menu tree is built). -/
abbrev MenuHash := Nat

/-- Caller-assigned string identifier, `MenuId` in the source. -/
abbrev MenuId := String

/-- One entry of a system-tray menu, `SystemTrayMenuEntry` in the source.
Modelled from the spec: the `runtime::menu` module that declares this type
is not part of the fragment; §3 of the spec describes an ordered, recursively
nested structure whose leaf entries (`CustomItem`) carry a numeric handle
`id` plus a string identifier `id_str`, whose composite entries (`Submenu`)
carry a nested menu (represented here directly as the nested entry list),
and whose remaining entries are decorative separators (the `_ => {}` arm of
`get_menu_ids`). -/
inductive SystemTrayMenuEntry where
  | CustomItem (id : MenuHash) (id_str : MenuId)
  | Submenu (inner : List SystemTrayMenuEntry)
  | Separator

/-- A system-tray menu, `SystemTrayMenu` in the source: an ordered list of
entries. Modelled from the spec (see `SystemTrayMenuEntry`). -/
structure SystemTrayMenu where
  items : List SystemTrayMenuEntry

/-- The registry, `HashMap<MenuHash, MenuId>` in the source, embedded as an
association list holding at most one entry per key (the `HashMap` insert
semantics below preserve this). -/
abbrev Registry := List (MenuHash × MenuId)

/-- `HashMap::insert` semantics: if the key is present its value is
replaced in place, otherwise the pair is appended. -/
def insertEntry (map : Registry) (k : MenuHash) (v : MenuId) : Registry :=
  if map.any (fun p => p.1 == k) then
    map.map (fun p => if p.1 == k then (k, v) else p)
  else
    map ++ [(k, v)]

mutual

/-- One loop iteration of `get_menu_ids` (tray.rs lines 24-32): a custom
item inserts `(c.id, c.id_str)`, a submenu recurses into its nested menu,
anything else is skipped. -/
def get_menu_ids_entry : Registry → SystemTrayMenuEntry → Registry
  | map, .CustomItem i s => insertEntry map i s
  | map, .Submenu inner => get_menu_ids_list map inner
  | map, .Separator => map

/-- The `for item in &menu.items` loop of `get_menu_ids`, threading the
mutable map through the iterations in declared order. -/
def get_menu_ids_list : Registry → List SystemTrayMenuEntry → Registry
  | map, [] => map
  | map, e :: rest => get_menu_ids_list (get_menu_ids_entry map e) rest

end

/-- `get_menu_ids` (tray.rs line 23): flatten a menu tree into the
handle → identifier map, mutating `map` in place. -/
def get_menu_ids (map : Registry) (menu : SystemTrayMenu) : Registry :=
  get_menu_ids_list map menu.items

/-- A handle to a system tray, `SystemTrayHandle` in the source.  The source
struct holds `ids: Arc<Mutex<HashMap<MenuHash, MenuId>>>` and a cloneable
native binding `inner`; here the registry cell's contents are carried
explicitly and the native binding is passed to each operation as an oracle
function. -/
structure SystemTrayHandle where
  ids : Registry
deriving DecidableEq, Repr

/-- A handle to one menu item, `SystemTrayMenuItemHandle` in the source
(its cloned native binding is again passed explicitly where needed). -/
structure SystemTrayMenuItemHandle where
  id : MenuHash
deriving DecidableEq, Repr

/-- Result of `get_item`: the source either returns a handle or executes
`panic!("item id not found")`, embedded here as an explicit constructor. -/
inductive GetItemResult where
  | found (handle : SystemTrayMenuItemHandle)
  | panic (msg : String)
deriving DecidableEq, Repr

/-- `SystemTrayHandle::get_item` (tray.rs lines 121-131): scan the current
(handle, identifier) pairs for an exact identifier match; return a
`SystemTrayMenuItemHandle` bound to the matching numeric handle, or panic. -/
def get_item (self : SystemTrayHandle) (id : MenuId) : GetItemResult :=
  match self.ids.find? (fun p => p.2 == id) with
  | some p => .found ⟨p.1⟩
  | none => .panic "item id not found"

/-- `crate::Error` as produced by the `map_err(Into::into)` / `?` conversions
in tray.rs: a native-layer error of type `ε` wrapped into the crate error. -/
inductive Error (ε : Type) where
  | Runtime (e : ε)
deriving DecidableEq, Repr

/-- The `map_err(Into::into)` conversion on a native result. -/
def mapNative {ε α : Type} : Except ε α → Except (Error ε) α
  | .ok a => .ok a
  | .error e => .error (.Runtime e)

/-- `SystemTrayHandle::set_menu` (tray.rs lines 139-145): build a fresh id
map from the new menu, call the native binding's `set_menu` (the `?`
operator returns its error, converted, leaving the registry untouched), and
only on success replace the held registry with the fresh map.  The native
binding is the oracle argument; the returned pair is (handle state after
the call, result seen by the caller). -/
def set_menu {ε : Type} (native : SystemTrayMenu → Except ε Unit)
    (self : SystemTrayHandle) (menu : SystemTrayMenu) :
    SystemTrayHandle × Except (Error ε) Unit :=
  let ids := get_menu_ids [] menu
  match native menu with
  | .error e => (self, .error (.Runtime e))
  | .ok _ => (⟨ids⟩, .ok ())

/-- Platform native image, opaque to this subsystem.  Modelled from the
spec: §6 lists `SetNativeImage(platform-image)` among the update variants;
the image payload itself is out of scope and is represented by a tag. -/
structure NativeImage where
  tag : Nat
deriving DecidableEq, Repr

/-- `MenuUpdate` of the native binding.  Modelled from the spec: §6 gives
the capability `update_item(handle, update)` where update is one of
SetEnabled(bool), SetTitle(string), SetSelected(bool),
SetNativeImage(platform-image); this matches the variants constructed in
tray.rs lines 157-190. -/
inductive MenuUpdate where
  | SetEnabled (enabled : Bool)
  | SetTitle (title : String)
  | SetSelected (selected : Bool)
  | SetNativeImage (image : NativeImage)
deriving DecidableEq, Repr

/-- `SystemTrayMenuItemHandle::set_enabled` (tray.rs lines 159-164): one
`update_item` call on the native binding keyed by the bound handle, with
the error converted by `map_err(Into::into)`.  The native binding is an
oracle with internal state `σ`; the returned pair is (native state after
the call, result seen by the caller). -/
def set_enabled {σ ε : Type} (update_item : σ → MenuHash → MenuUpdate → σ × Except ε Unit)
    (s : σ) (self : SystemTrayMenuItemHandle) (enabled : Bool) :
    σ × Except (Error ε) Unit :=
  let r := update_item s self.id (.SetEnabled enabled)
  (r.1, mapNative r.2)

/-- `SystemTrayMenuItemHandle::set_title` (tray.rs lines 167-172). -/
def set_title {σ ε : Type} (update_item : σ → MenuHash → MenuUpdate → σ × Except ε Unit)
    (s : σ) (self : SystemTrayMenuItemHandle) (title : String) :
    σ × Except (Error ε) Unit :=
  let r := update_item s self.id (.SetTitle title)
  (r.1, mapNative r.2)

/-- `SystemTrayMenuItemHandle::set_selected` (tray.rs lines 175-180). -/
def set_selected {σ ε : Type} (update_item : σ → MenuHash → MenuUpdate → σ × Except ε Unit)
    (s : σ) (self : SystemTrayMenuItemHandle) (selected : Bool) :
    σ × Except (Error ε) Unit :=
  let r := update_item s self.id (.SetSelected selected)
  (r.1, mapNative r.2)

end Tray

namespace Notif

/-- `Notification` (notification.rs lines 34-43): builder-style value. -/
structure Notification where
  body : Option String
  title : Option String
  icon : Option String
  identifier : String
deriving DecidableEq, Repr

/-- `Notification::new` (notification.rs lines 47-52): identifier set, the
remaining fields default to none. -/
def Notification.new (identifier : String) : Notification :=
  { body := none, title := none, icon := none, identifier := identifier }

/-- `Notification::body` (notification.rs lines 56-59). -/
def Notification.body_set (self : Notification) (body : String) : Notification :=
  { self with body := some body }

/-- `Notification::title` (notification.rs lines 63-66). -/
def Notification.title_set (self : Notification) (title : String) : Notification :=
  { self with title := some title }

/-- `Notification::icon` (notification.rs lines 70-73). -/
def Notification.icon_set (self : Notification) (icon : String) : Notification :=
  { self with icon := some icon }

/-- The `notify_rust::Notification` value built inside `show`
(notification.rs lines 77-86): starts from the library default and copies
each field that is set.  Modelled from the spec: the notification service
itself is an external collaborator; only the fields this fragment sets are
represented. -/
structure NativeNotification where
  body : Option String
  summary : Option String
  icon : Option String
deriving DecidableEq, Repr

/-- The field-copying prefix of `show` (notification.rs lines 77-86):
`body` is copied to the native body, `title` to the native summary, `icon`
to the native icon; unset fields keep the library default (none). -/
def toNative (self : Notification) : NativeNotification :=
  { body := self.body, summary := self.title, icon := self.icon }

/-- Outcome of the spawned asynchronous task. -/
inductive TaskOutcome where
  | completed
  | panicked (msg : String)
deriving DecidableEq, Repr

/-- The task spawned by `show` (notification.rs lines 100-102): it calls
the native show and `expect`s, so a native failure panics inside the
detached task. -/
def spawned_show {ε : Type} (native_show : NativeNotification → Except ε Unit)
    (nn : NativeNotification) : TaskOutcome :=
  match native_show nn with
  | .ok _ => .completed
  | .error _ => .panicked "failed to show notification"

/-- `Notification::show` (notification.rs lines 76-105), non-Windows build
(the `cfg(windows)` app-identity block compiles out): builds the native
notification, spawns the show call as a detached task, and returns `Ok(())`
to the caller immediately.  `α` is the error type of `crate::api::Result`;
the returned pair is (caller-visible result, outcome of the detached
task). -/
def show_dispatch {ε α : Type} (native_show : NativeNotification → Except ε Unit)
    (self : Notification) : Except α Unit × TaskOutcome :=
  let notification := toNative self
  (Except.ok (), spawned_show native_show notification)

end Notif

namespace Cli

/-- Tauri config fragment: `context.config.tauri.cli` (cli.rs line 21) is
an optional CLI schema of type `γ` (the schema itself is external). -/
structure TauriConfig (γ : Type) where
  cli : Option γ

/-- `context.config` with its `tauri` section. -/
structure Config (γ : Type) where
  tauri : TauriConfig γ

/-- `InvokeContext` as used by `cli_matches` (cli.rs lines 20-22): the
configuration plus the package info of type `π`. -/
structure InvokeContext (γ π : Type) where
  config : Config γ
  package_info : π

/-- The endpoint error: `crate::Error::ApiNotAllowlisted(msg)` produced on
the missing-configuration branch (cli.rs line 26), or the CLI bridge's own
error mapped through `map_err(Into::into)` (cli.rs line 24). -/
inductive CmdError (ε : Type) where
  | ApiNotAllowlisted (msg : String)
  | Api (e : ε)
deriving DecidableEq, Repr

/-- The `map_err(Into::into)` conversion on the CLI bridge result. -/
def mapApi {ε ρ : Type} : Except ε ρ → Except (CmdError ε) ρ
  | .ok r => .ok r
  | .error e => .error (.Api e)

/-- `Cmd::cli_matches` (cli.rs lines 20-28): if a CLI schema is declared,
return the result of parsing the process arguments against it
(`crate::api::cli::get_matches`, an external collaborator passed as the
oracle `get_matches`); otherwise return the typed ApiNotAllowlisted
configuration error.  The codomain is a plain result type: the function
has no panic outcome. -/
def cli_matches {γ π ρ ε : Type} (get_matches : γ → π → Except ε ρ)
    (context : InvokeContext γ π) : Except (CmdError ε) ρ :=
  match context.config.tauri.cli with
  | some cli => mapApi (get_matches cli context.package_info)
  | none =>
      .error (.ApiNotAllowlisted
        "CLI definition not set under tauri.conf.json > tauri > cli (https://tauri.studio/docs/api/config#tauri.cli)")

end Cli

namespace Tray

/-!
Spec-side definitions, written from the spec's words (§4.1, §8) to be
compared with the embedded code: the list of leaf custom items of a tree
in declared traversal order, submenu nesting to a given depth, and lookup
of a numeric handle in a registry.
-/

mutual

/-- The leaf custom items contributed by one entry, in declared order:
a custom item is one leaf, a submenu contributes its nested leaves, a
separator contributes nothing (spec §8, first testable property). -/
def leaves_entry : SystemTrayMenuEntry → List (MenuHash × MenuId)
  | .CustomItem i s => [(i, s)]
  | .Submenu inner => leaves_list inner
  | .Separator => []

/-- The leaf custom items of an entry list, in declared order. -/
def leaves_list : List SystemTrayMenuEntry → List (MenuHash × MenuId)
  | [] => []
  | e :: rest => leaves_entry e ++ leaves_list rest

end

/-- The leaf custom items of a menu, in declared traversal order. -/
def leaves (menu : SystemTrayMenu) : List (MenuHash × MenuId) :=
  leaves_list menu.items

/-- Wrap an entry list in `n` levels of submenu nesting. -/
def nest : Nat → List SystemTrayMenuEntry → List SystemTrayMenuEntry
  | 0, items => items
  | n + 1, items => [SystemTrayMenuEntry.Submenu (nest n items)]

/-- The numeric-handle keys of a handle/identifier list. -/
def keys (l : List (MenuHash × MenuId)) : List MenuHash :=
  l.map Prod.fst

/-- Look a numeric handle up in a registry (first entry with that key). -/
def lookupHash (map : Registry) (k : MenuHash) : Option MenuId :=
  (map.find? (fun p => p.1 == k)).map (fun p => p.2)

/-- The identifier of the LAST leaf carrying handle `k`, in declared
traversal order — the spec's last-writer-wins value (§4.1). -/
def lastVal (l : List (MenuHash × MenuId)) (k : MenuHash) : Option MenuId :=
  (l.reverse.find? (fun p => p.1 == k)).map (fun p => p.2)

end Tray

namespace Tray

/-- Threading the id map through a concatenation of entry lists: flattening
`a ++ b` is flattening `b` starting from the map produced by `a`. -/
theorem get_menu_ids_list_append (m : Registry) (a b : List SystemTrayMenuEntry) :
    get_menu_ids_list m (a ++ b) = get_menu_ids_list (get_menu_ids_list m a) b := by
  induction a generalizing m with
  | nil => rfl
  | cons e rest ih => simp [get_menu_ids_list, ih]

/-- Flattening a singleton submenu entry is flattening its nested list. -/
theorem get_menu_ids_list_submenu (m : Registry) (es : List SystemTrayMenuEntry) :
    get_menu_ids_list m [SystemTrayMenuEntry.Submenu es] = get_menu_ids_list m es := by
  simp [get_menu_ids_list, get_menu_ids_entry]

/-- Nesting does not change the flattened map. -/
theorem get_menu_ids_list_nest (n : Nat) (m : Registry) (items : List SystemTrayMenuEntry) :
    get_menu_ids_list m (nest n items) = get_menu_ids_list m items := by
  induction n with
  | zero => rfl
  | succ n ih => simp [nest, get_menu_ids_list_submenu, ih]

/-- Claim C1: for every installed registry and identifier `id`, `get_item`
returns a menu-item handle bound to a numeric handle whose registry entry
is exactly `id` when such an entry exists, and panics with
"item id not found" when no entry matches. -/
theorem get_item_found_or_panic (self : SystemTrayHandle) (id : MenuId) :
    ((∃ p ∈ self.ids, p.2 = id) →
      ∃ h, get_item self id = .found ⟨h⟩ ∧ (h, id) ∈ self.ids)
    ∧ ((∀ p ∈ self.ids, p.2 ≠ id) →
      get_item self id = .panic ("item id not found")) := by
  constructor
  · rintro ⟨p, hp, hpid⟩
    unfold get_item
    cases hfind : self.ids.find? (fun q => q.2 == id) with
    | none =>
        exfalso
        have := List.find?_eq_none.mp hfind p hp
        simp [hpid] at this
    | some q =>
        refine ⟨q.1, rfl, ?_⟩
        have hmem := List.mem_of_find?_eq_some hfind
        have hq := List.find?_some hfind
        have hq2 : q.2 = id := by simpa using hq
        simpa [← hq2] using hmem
  · intro hall
    unfold get_item
    cases hfind : self.ids.find? (fun q => q.2 == id) with
    | none => rfl
    | some q =>
        exfalso
        have hq := List.find?_some hfind
        have hmem := List.mem_of_find?_eq_some hfind
        simp at hq
        exact hall q hmem hq

theorem get_item_found_or_panic_witness :
    (∃ h, get_item ⟨[(1, "quit")]⟩ "quit" = .found ⟨h⟩ ∧ (h, "quit") ∈ [((1 : MenuHash), ("quit" : MenuId))])
    ∧ get_item ⟨[(1, "quit")]⟩ "missing" = .panic ("item id not found") :=
  ⟨(get_item_found_or_panic ⟨[(1, "quit")]⟩ "quit").1 ⟨(1, "quit"), by simp, rfl⟩,
   (get_item_found_or_panic ⟨[(1, "quit")]⟩ "missing").2 (by simp)⟩

/-- Claim C2: if the native `set_menu` call fails, the held registry is left
unchanged (every subsequent `get_item` answers exactly as before, so an
identifier present only in the old tree still resolves) and the converted
native error is returned; the registry is replaced by the freshly flattened
map only when the native call succeeds. -/
theorem set_menu_atomic {ε : Type} (native : SystemTrayMenu → Except ε Unit)
    (self : SystemTrayHandle) (menu : SystemTrayMenu) :
    (∀ e, native menu = .error e →
      (set_menu native self menu).1 = self
      ∧ (set_menu native self menu).2 = .error (.Runtime e)
      ∧ ∀ id, get_item (set_menu native self menu).1 id = get_item self id)
    ∧ (native menu = .ok () →
      (set_menu native self menu).1 = ⟨get_menu_ids [] menu⟩
      ∧ (set_menu native self menu).2 = .ok ()) := by
  constructor
  · intro e he
    simp [set_menu, he]
  · intro hok
    simp [set_menu, hok]

theorem set_menu_atomic_witness :
    ((set_menu (fun _ => (Except.error "boom" : Except String Unit)) ⟨[(5, "old")]⟩
        ⟨[.CustomItem 9 "new"]⟩).1 = ⟨[(5, "old")]⟩
      ∧ (set_menu (fun _ => (Except.error "boom" : Except String Unit)) ⟨[(5, "old")]⟩
        ⟨[.CustomItem 9 "new"]⟩).2 = .error (.Runtime ("boom"))
      ∧ ∀ id, get_item (set_menu (fun _ => (Except.error "boom" : Except String Unit)) ⟨[(5, "old")]⟩
        ⟨[.CustomItem 9 "new"]⟩).1 id = get_item ⟨[(5, "old")]⟩ id)
    ∧ ((set_menu (fun _ => (Except.ok () : Except String Unit)) ⟨[(5, "old")]⟩
        ⟨[.CustomItem 9 "new"]⟩).1 = ⟨get_menu_ids [] ⟨[.CustomItem 9 "new"]⟩⟩
      ∧ (set_menu (fun _ => (Except.ok () : Except String Unit)) ⟨[(5, "old")]⟩
        ⟨[.CustomItem 9 "new"]⟩).2 = .ok ()) :=
  ⟨(set_menu_atomic _ _ _).1 "boom" rfl, (set_menu_atomic _ _ _).2 rfl⟩

/-- Claim C4: flattening merges a submenu's entries in place into the single
parent mapping with no per-submenu namespacing, and a leaf nested under any
number of submenu levels produces the same map — so `get_item` on its
identifier answers exactly as for the un-nested list. -/
theorem flatten_no_namespacing (map : Registry) (pre es post : List SystemTrayMenuEntry)
    (n : Nat) (items : List SystemTrayMenuEntry) (id : MenuId) :
    get_menu_ids_list map (pre ++ SystemTrayMenuEntry.Submenu es :: post)
      = get_menu_ids_list map (pre ++ (es ++ post))
    ∧ get_menu_ids [] ⟨nest n items⟩ = get_menu_ids [] ⟨items⟩
    ∧ get_item ⟨get_menu_ids [] ⟨nest n items⟩⟩ id = get_item ⟨get_menu_ids [] ⟨items⟩⟩ id := by
  have h1 : get_menu_ids_list map (pre ++ SystemTrayMenuEntry.Submenu es :: post)
      = get_menu_ids_list map (pre ++ (es ++ post)) := by
    simp [get_menu_ids_list_append, get_menu_ids_list, get_menu_ids_entry]
  have h2 : get_menu_ids [] ⟨nest n items⟩ = get_menu_ids [] ⟨items⟩ := by
    simp [get_menu_ids, get_menu_ids_list_nest]
  exact ⟨h1, h2, by rw [h2]⟩

/-- Claim C6: with a deterministic native layer that accepts the menu,
installing the same tree twice leaves the registry exactly as after the
first installation, so `get_item` resolves every identifier to the same
numeric handle both times. -/
theorem set_menu_idempotent {ε : Type} (native : SystemTrayMenu → Except ε Unit)
    (self : SystemTrayHandle) (menu : SystemTrayMenu) (h : native menu = .ok ()) :
    (set_menu native (set_menu native self menu).1 menu).1 = (set_menu native self menu).1
    ∧ ∀ id, get_item (set_menu native (set_menu native self menu).1 menu).1 id
        = get_item (set_menu native self menu).1 id := by
  simp [set_menu, h]

theorem set_menu_idempotent_witness :
    (set_menu (fun _ => (Except.ok () : Except String Unit))
        (set_menu (fun _ => (Except.ok () : Except String Unit)) ⟨[]⟩ ⟨[.CustomItem 1 "quit"]⟩).1
        ⟨[.CustomItem 1 "quit"]⟩).1
      = (set_menu (fun _ => (Except.ok () : Except String Unit)) ⟨[]⟩ ⟨[.CustomItem 1 "quit"]⟩).1
    ∧ ∀ id, get_item (set_menu (fun _ => (Except.ok () : Except String Unit))
        (set_menu (fun _ => (Except.ok () : Except String Unit)) ⟨[]⟩ ⟨[.CustomItem 1 "quit"]⟩).1
        ⟨[.CustomItem 1 "quit"]⟩).1 id
      = get_item (set_menu (fun _ => (Except.ok () : Except String Unit)) ⟨[]⟩
        ⟨[.CustomItem 1 "quit"]⟩).1 id :=
  set_menu_idempotent _ _ _ rfl

end Tray

namespace Tray

/-- Looking a handle up in a cons: the head answers when its key matches. -/
theorem lookupHash_cons (p : MenuHash × MenuId) (l : Registry) (k : MenuHash) :
    lookupHash (p :: l) k = if p.1 = k then some p.2 else lookupHash l k := by
  by_cases h : p.1 = k <;> simp [lookupHash, List.find?_cons, h]

/-- Looking a handle up in a concatenation: the left part answers first. -/
theorem lookupHash_append (a b : Registry) (k : MenuHash) :
    lookupHash (a ++ b) k
      = match lookupHash a k with
        | some v => some v
        | none => lookupHash b k := by
  induction a with
  | nil => simp [lookupHash]
  | cons p a ih =>
      by_cases h : p.1 = k <;> simp [lookupHash_cons, h, ih]

/-- In the replace branch of `insertEntry`, the replaced key is found with
the new value exactly when it occurs in the original list. -/
theorem lookupHash_map_replace_self (m : Registry) (q : MenuHash) (v : MenuId) :
    lookupHash (m.map (fun p => if p.1 == q then (q, v) else p)) q
      = if m.any (fun p => p.1 == q) then some v else none := by
  induction m with
  | nil => simp [lookupHash]
  | cons p m ih =>
      rw [List.map_cons, lookupHash_cons]
      by_cases h : p.1 = q
      · simp [h]
      · have hb : (p.1 == q) = false := by simpa using h
        rw [List.any_cons, hb, Bool.false_or]
        rw [if_neg (show ¬ (if false = true then (q, v) else p).1 = q by simpa using h)]
        exact ih

/-- In the replace branch of `insertEntry`, lookups of other keys are
unaffected. -/
theorem lookupHash_map_replace_other (m : Registry) (q k : MenuHash) (v : MenuId)
    (hk : k ≠ q) :
    lookupHash (m.map (fun p => if p.1 == q then (q, v) else p)) k
      = lookupHash m k := by
  induction m with
  | nil => rfl
  | cons p m ih =>
      rw [List.map_cons, lookupHash_cons, lookupHash_cons]
      have hqk : q ≠ k := fun he => hk he.symm
      by_cases h : p.1 = q
      · have hb : (p.1 == q) = true := by simpa using h
        have hpk : p.1 ≠ k := by rw [h]; exact hqk
        rw [hb]
        rw [if_neg (show ¬ (if true = true then (q, v) else p).1 = k from hqk),
          if_neg hpk]
        exact ih
      · have hb : (p.1 == q) = false := by simpa using h
        rw [hb]
        by_cases h2 : p.1 = k
        · rw [if_pos (show (if false = true then (q, v) else p).1 = k from h2),
            if_pos h2]
          rfl
        · rw [if_neg (show ¬ (if false = true then (q, v) else p).1 = k from h2),
            if_neg h2]
          exact ih

/-- `HashMap::insert` then lookup: the inserted key answers with the new
value, every other key answers as before. -/
theorem lookupHash_insertEntry (m : Registry) (q k : MenuHash) (v : MenuId) :
    lookupHash (insertEntry m q v) k = if k = q then some v else lookupHash m k := by
  unfold insertEntry
  by_cases hany : m.any (fun p => p.1 == q) = true
  · rw [if_pos hany]
    by_cases h : k = q
    · subst h
      rw [lookupHash_map_replace_self, if_pos hany, if_pos rfl]
    · rw [lookupHash_map_replace_other m q k v h, if_neg h]
  · rw [if_neg hany, lookupHash_append]
    have hnone : lookupHash m q = none := by
      have hfind : m.find? (fun p => p.1 == q) = none := by
        rw [List.find?_eq_none]
        intro p hp
        exact fun hbeq => hany (List.any_eq_true.mpr ⟨p, hp, hbeq⟩)
      simp [lookupHash, hfind]
    have hsingle : ∀ j, lookupHash [(q, v)] j = if q = j then some v else none := by
      intro j
      rw [lookupHash_cons]
      simp [lookupHash]
    by_cases h : k = q
    · subst h
      simp [hnone, hsingle]
    · have hqk : q ≠ k := fun he => h he.symm
      cases hm : lookupHash m k <;> simp [hm, hsingle, hqk, h]

/-- The last-writer value of a list is the first-found value of its
reverse. -/
theorem lastVal_eq_lookup_reverse (l : List (MenuHash × MenuId)) (k : MenuHash) :
    lastVal l k = lookupHash l.reverse k := rfl

/-- Last-writer value of a concatenation: the right part answers first. -/
theorem lastVal_append (a b : List (MenuHash × MenuId)) (k : MenuHash) :
    lastVal (a ++ b) k
      = match lastVal b k with
        | some v => some v
        | none => lastVal a k := by
  rw [lastVal_eq_lookup_reverse, List.reverse_append, lookupHash_append,
    lastVal_eq_lookup_reverse, lastVal_eq_lookup_reverse]

mutual

/-- Handle lookup after flattening one entry into `m`: the entry's own
last-writer value wins, otherwise the previous map answers. -/
theorem flatten_lookup_entry (e : SystemTrayMenuEntry) (m : Registry) (k : MenuHash) :
    lookupHash (get_menu_ids_entry m e) k
      = match lastVal (leaves_entry e) k with
        | some v => some v
        | none => lookupHash m k := by
  cases e with
  | CustomItem i s =>
      have hlv : lastVal (leaves_entry (.CustomItem i s)) k
          = if i = k then some s else none := by
        rw [leaves_entry, lastVal_eq_lookup_reverse]
        simp only [List.reverse_singleton]
        rw [lookupHash_cons]
        simp [lookupHash]
      rw [get_menu_ids_entry, lookupHash_insertEntry, hlv]
      by_cases h : k = i
      · subst h; simp
      · have hik : i ≠ k := fun he => h he.symm
        rw [if_neg h, if_neg hik]
  | Submenu inner =>
      rw [get_menu_ids_entry, leaves_entry]
      exact flatten_lookup_list inner m k
  | Separator => simp [get_menu_ids_entry, leaves_entry, lastVal]

/-- Handle lookup after flattening an entry list into `m`: the list's own
last-writer value wins, otherwise the previous map answers. -/
theorem flatten_lookup_list (es : List SystemTrayMenuEntry) (m : Registry) (k : MenuHash) :
    lookupHash (get_menu_ids_list m es) k
      = match lastVal (leaves_list es) k with
        | some v => some v
        | none => lookupHash m k := by
  cases es with
  | nil => simp [get_menu_ids_list, leaves_list, lastVal]
  | cons e rest =>
      rw [get_menu_ids_list, leaves_list, lastVal_append,
        flatten_lookup_list rest (get_menu_ids_entry m e) k,
        flatten_lookup_entry e m k]
      cases lastVal (leaves_list rest) k <;> cases lastVal (leaves_entry e) k <;> simp

end

/-- Claim C5: flattening is a deterministic function of the tree, traverses
entries in declared order, and on duplicate numeric handles the later
entry's identifier overwrites the earlier one: looking any handle up in the
flattened map yields exactly the identifier of the LAST leaf carrying that
handle in declared traversal order (and no error value exists). -/
theorem flatten_last_writer_wins (menu : SystemTrayMenu) (k : MenuHash) :
    lookupHash (get_menu_ids [] menu) k = lastVal (leaves menu) k := by
  rw [get_menu_ids, flatten_lookup_list menu.items [] k]
  cases h : lastVal (leaves menu) k <;>
    simp_all [leaves, lookupHash]

end Tray

namespace Tray

/-- Inserting a key absent from the map appends the pair. -/
theorem insertEntry_fresh (m : Registry) (k : MenuHash) (v : MenuId)
    (h : ∀ p ∈ m, p.1 ≠ k) : insertEntry m k v = m ++ [(k, v)] := by
  have hany : m.any (fun p => p.1 == k) = false := by
    rw [List.any_eq_false]
    intro p hp
    simpa using h p hp
  unfold insertEntry
  rw [hany]
  rfl

mutual

/-- Flattening one entry whose leaf handles are distinct and fresh for the
accumulated map appends exactly the entry's leaves. -/
theorem flatten_fresh_entry (e : SystemTrayMenuEntry) (m : Registry)
    (hnd : (keys (leaves_entry e)).Nodup)
    (hdisj : ∀ p ∈ m, p.1 ∉ keys (leaves_entry e)) :
    get_menu_ids_entry m e = m ++ leaves_entry e := by
  cases e with
  | CustomItem i s =>
      rw [get_menu_ids_entry, leaves_entry]
      refine insertEntry_fresh m i s ?_
      intro p hp
      have := hdisj p hp
      simpa [leaves_entry, keys] using this
  | Submenu inner =>
      rw [get_menu_ids_entry, leaves_entry]
      exact flatten_fresh_list inner m hnd hdisj
  | Separator =>
      rw [get_menu_ids_entry, leaves_entry]
      simp

/-- Flattening an entry list whose leaf handles are distinct and fresh for
the accumulated map appends exactly the list's leaves. -/
theorem flatten_fresh_list (es : List SystemTrayMenuEntry) (m : Registry)
    (hnd : (keys (leaves_list es)).Nodup)
    (hdisj : ∀ p ∈ m, p.1 ∉ keys (leaves_list es)) :
    get_menu_ids_list m es = m ++ leaves_list es := by
  cases es with
  | nil =>
      rw [get_menu_ids_list, leaves_list]
      simp
  | cons e rest =>
      have hsplit : ∀ x : MenuHash, x ∈ keys (leaves_list (e :: rest))
          ↔ x ∈ keys (leaves_entry e) ∨ x ∈ keys (leaves_list rest) := by
        intro x
        rw [leaves_list]
        simp [keys]
      have hnd' : (keys (leaves_entry e) ++ keys (leaves_list rest)).Nodup := by
        rw [leaves_list] at hnd
        simpa [keys] using hnd
      obtain ⟨hndA, hndB, hAB⟩ := List.nodup_append.mp hnd'
      have h1 : get_menu_ids_entry m e = m ++ leaves_entry e :=
        flatten_fresh_entry e m hndA
          (fun p hp hin => hdisj p hp ((hsplit p.1).mpr (Or.inl hin)))
      have hdisjB : ∀ p ∈ m ++ leaves_entry e, p.1 ∉ keys (leaves_list rest) := by
        intro p hp hinB
        rcases List.mem_append.mp hp with hm | hA
        · exact hdisj p hm ((hsplit p.1).mpr (Or.inr hinB))
        · exact hAB (List.mem_map_of_mem Prod.fst hA) hinB
      have h2 : get_menu_ids_list (m ++ leaves_entry e) rest
          = (m ++ leaves_entry e) ++ leaves_list rest :=
        flatten_fresh_list rest (m ++ leaves_entry e) hndB hdisjB
      calc get_menu_ids_list m (e :: rest)
          = get_menu_ids_list (get_menu_ids_entry m e) rest := by
            rw [get_menu_ids_list]
        _ = get_menu_ids_list (m ++ leaves_entry e) rest := by rw [h1]
        _ = (m ++ leaves_entry e) ++ leaves_list rest := h2
        _ = m ++ (leaves_entry e ++ leaves_list rest) := by rw [List.append_assoc]
        _ = m ++ leaves_list (e :: rest) := by rw [leaves_list]

end

/-- Claim C3 (amended): for every menu tree whose leaf custom items carry
pairwise-distinct numeric handles, flattening from the empty map produces
exactly the list of leaf (handle, identifier) pairs — one entry per leaf
custom item and no entry for separators or submenu nodes.  (Without the
distinctness hypothesis a duplicated handle collapses two leaves into one
entry — see the counterexample.) -/
theorem flatten_one_entry_per_leaf (menu : SystemTrayMenu)
    (hnd : (keys (leaves menu)).Nodup) :
    get_menu_ids [] menu = leaves menu := by
  rw [get_menu_ids, leaves]
  have := flatten_fresh_list menu.items [] (by simpa [leaves] using hnd)
    (by intro p hp; cases hp)
  simpa using this

theorem flatten_one_entry_per_leaf_witness :
    (keys (leaves ⟨[.CustomItem 1 "quit", .Submenu [.CustomItem 2 "about"], .Separator]⟩)).Nodup
    ∧ get_menu_ids [] ⟨[.CustomItem 1 "quit", .Submenu [.CustomItem 2 "about"], .Separator]⟩
        = leaves ⟨[.CustomItem 1 "quit", .Submenu [.CustomItem 2 "about"], .Separator]⟩ :=
  ⟨by decide, flatten_one_entry_per_leaf _ (by decide)⟩

/-- Claim C3, as frozen, is false: in the tree
[CustomItem 1 "a", CustomItem 1 "b"] both leaves carry handle 1, the
flattened map holds a single entry, not one entry per leaf custom item. -/
theorem flatten_not_one_entry_per_leaf :
    (leaves ⟨[.CustomItem 1 "a", .CustomItem 1 "b"]⟩).length = 2
    ∧ (get_menu_ids [] ⟨[.CustomItem 1 "a", .CustomItem 1 "b"]⟩).length = 1 := by
  constructor
  · rfl
  · rfl

end Tray

namespace Tray

/-- Claim C8: each of `set_enabled`, `set_title` and `set_selected` issues
exactly one `update_item` call on the native binding, keyed by the bound
numeric handle and carrying the matching update variant (the resulting
native state is exactly the state after that single call), and when the
native layer rejects the update the native error is handed back to the
caller unmodified up to the crate-error wrapping; no retry is performed. -/
theorem update_item_single_call {σ ε : Type}
    (update_item : σ → MenuHash → MenuUpdate → σ × Except ε Unit)
    (s : σ) (item : SystemTrayMenuItemHandle) (b sel : Bool) (t : String) :
    ((set_enabled update_item s item b).1 = (update_item s item.id (.SetEnabled b)).1
      ∧ ∀ e s', update_item s item.id (.SetEnabled b) = (s', .error e) →
          set_enabled update_item s item b = (s', .error (.Runtime e)))
    ∧ ((set_title update_item s item t).1 = (update_item s item.id (.SetTitle t)).1
      ∧ ∀ e s', update_item s item.id (.SetTitle t) = (s', .error e) →
          set_title update_item s item t = (s', .error (.Runtime e)))
    ∧ ((set_selected update_item s item sel).1 = (update_item s item.id (.SetSelected sel)).1
      ∧ ∀ e s', update_item s item.id (.SetSelected sel) = (s', .error e) →
          set_selected update_item s item sel = (s', .error (.Runtime e))) := by
  refine ⟨⟨rfl, ?_⟩, ⟨rfl, ?_⟩, ⟨rfl, ?_⟩⟩ <;>
    · intro e s' h
      simp [set_enabled, set_title, set_selected, h, mapNative]

theorem update_item_single_call_witness :
    (set_enabled (fun tr h u => (tr ++ [(h, u)], (Except.error "rejected" : Except String Unit)))
        [] ⟨7⟩ true = ([(7, MenuUpdate.SetEnabled true)], .error (.Runtime ("rejected"))))
    ∧ (set_title (fun tr h u => (tr ++ [(h, u)], (Except.error "rejected" : Except String Unit)))
        [] ⟨7⟩ "hi" = ([(7, MenuUpdate.SetTitle "hi")], .error (.Runtime ("rejected"))))
    ∧ (set_selected (fun tr h u => (tr ++ [(h, u)], (Except.error "rejected" : Except String Unit)))
        [] ⟨7⟩ false = ([(7, MenuUpdate.SetSelected false)], .error (.Runtime ("rejected")))) :=
  ⟨((update_item_single_call (fun tr h u => (tr ++ [(h, u)], Except.error "rejected"))
      [] ⟨7⟩ true false "hi").1).2 "rejected" [(7, MenuUpdate.SetEnabled true)] rfl,
   ((update_item_single_call (fun tr h u => (tr ++ [(h, u)], Except.error "rejected"))
      [] ⟨7⟩ true false "hi").2).1.2 "rejected" [(7, MenuUpdate.SetTitle "hi")] rfl,
   ((update_item_single_call (fun tr h u => (tr ++ [(h, u)], Except.error "rejected"))
      [] ⟨7⟩ true false "hi").2).2.2 "rejected" [(7, MenuUpdate.SetSelected false)] rfl⟩

end Tray

namespace Notif

/-- Claim C9: `show` dispatches the native show fire-and-forget — it returns
`Ok(())` to the caller unconditionally, and in particular when the native
show of the built notification fails the detached task panics while the
caller still observes `Ok(())`; the failure is not observable through the
return value. -/
theorem show_fire_and_forget {ε α : Type} (native_show : NativeNotification → Except ε Unit)
    (self : Notification) :
    (@show_dispatch ε α native_show self).1 = Except.ok ()
    ∧ ∀ e, native_show (toNative self) = .error e →
        (@show_dispatch ε α native_show self).2 = .panicked ("failed to show notification")
        ∧ (@show_dispatch ε α native_show self).1 = Except.ok () := by
  refine ⟨rfl, ?_⟩
  intro e he
  exact ⟨by simp [show_dispatch, spawned_show, he], rfl⟩

theorem show_fire_and_forget_witness :
    (@show_dispatch String String (fun _ => Except.error "denied") (Notification.new "com.app")).1
      = Except.ok ()
    ∧ (@show_dispatch String String (fun _ => Except.error "denied")
        (Notification.new "com.app")).2 = .panicked ("failed to show notification") :=
  ⟨(show_fire_and_forget (fun _ => Except.error "denied") (Notification.new "com.app")).1,
   ((show_fire_and_forget (fun _ => Except.error "denied") (Notification.new "com.app")).2
      "denied" rfl).1⟩

end Notif

namespace Cli

/-- Claim C10: `cli_matches` returns the typed, recoverable ApiNotAllowlisted
configuration error exactly when no CLI schema is declared in the
configuration, and otherwise returns the CLI bridge's parse result (errors
wrapped by the `Into` conversion); its codomain is a plain result type, so
no process-terminating outcome exists. -/
theorem cli_matches_config_or_parse {γ π ρ ε : Type} (get_matches : γ → π → Except ε ρ)
    (context : InvokeContext γ π) :
    (context.config.tauri.cli = none →
      cli_matches get_matches context = .error (.ApiNotAllowlisted
        ("CLI definition not set under tauri.conf.json > tauri > cli (https://tauri.studio/docs/api/config#tauri.cli)")))
    ∧ (∀ c, context.config.tauri.cli = some c →
      cli_matches get_matches context = mapApi (get_matches c context.package_info)) := by
  constructor
  · intro h
    simp [cli_matches, h]
  · intro c h
    simp [cli_matches, h]

theorem cli_matches_config_or_parse_witness :
    (cli_matches (fun _ _ => (Except.ok 42 : Except String Nat))
        (⟨⟨⟨none⟩⟩, ()⟩ : InvokeContext Unit Unit)
      = .error (.ApiNotAllowlisted
        ("CLI definition not set under tauri.conf.json > tauri > cli (https://tauri.studio/docs/api/config#tauri.cli)")))
    ∧ (cli_matches (fun _ _ => (Except.ok 42 : Except String Nat))
        (⟨⟨⟨some ()⟩⟩, ()⟩ : InvokeContext Unit Unit)
      = mapApi (Except.ok 42)) :=
  ⟨(cli_matches_config_or_parse (fun _ _ => Except.ok 42) ⟨⟨⟨none⟩⟩, ()⟩).1 rfl,
   (cli_matches_config_or_parse (fun _ _ => Except.ok 42) ⟨⟨⟨some ()⟩⟩, ()⟩).2 () rfl⟩

end Cli
